import Mathlib

/-!
Verification of the Crystal Copilot backend (sap-crystal-copilot).

This file shallowly embeds the data model and the operations of the backend
and proves properties about them:

* `src/backend/app/models/report.py` — the report/patch/change-log entities,
  including the `EditPatch.validate_position` pydantic validator;
* `src/backend/app/api/v1/endpoints/upload.py` — synchronous upload
  validation and the background-processing status lifecycle;
* `src/backend/app/services/storage.py` — the stored report record
  (status / error message / metadata blob) and its update operations;
* `src/backend/app/services/edit_service.py` — patch validation, preview,
  and apply with partial-failure accounting and dry-run semantics;
* `src/backend/app/api/v1/endpoints/query.py` — the deterministic
  query-suggestion generator;
* `src/backend/app/utils/file_utils.py` — `get_unique_filename`.

Conventions: Python mutation becomes explicit state passing; a raised
exception becomes an `Except` error value or an explicit abort branch;
Python dictionaries become association lists; Python string truthiness
(empty string / empty collection is falsy) is modelled explicitly where
the source relies on it.
-/

namespace CrystalCopilot

/-! ## Data model (src/backend/app/models/report.py) -/

/-- Status of report processing (`ReportStatus`). -/
inductive ReportStatus where
  | UPLOADING
  | PARSING
  | READY
  | ERROR
deriving DecidableEq, Repr

/-- String value of a `ReportStatus` member, as in the Python `str` enum. -/
def ReportStatus.value : ReportStatus → String
  | .UPLOADING => "uploading"
  | .PARSING => "parsing"
  | .READY => "ready"
  | .ERROR => "error"

/-- Crystal Reports field types (`FieldType`). -/
inductive FieldType where
  | STRING
  | NUMBER
  | DATE
  | DATETIME
  | BOOLEAN
  | CURRENCY
  | FORMULA
  | PARAMETER
  | RUNNING_TOTAL
  | GROUP
  | SUMMARY
deriving DecidableEq, Repr

/-- String value of a `FieldType` member. -/
def FieldType.value : FieldType → String
  | .STRING => "string"
  | .NUMBER => "number"
  | .DATE => "date"
  | .DATETIME => "datetime"
  | .BOOLEAN => "boolean"
  | .CURRENCY => "currency"
  | .FORMULA => "formula"
  | .PARAMETER => "parameter"
  | .RUNNING_TOTAL => "running_total"
  | .GROUP => "group"
  | .SUMMARY => "summary"

/-- Crystal Reports section types (`SectionType`). -/
inductive SectionType where
  | REPORT_HEADER
  | PAGE_HEADER
  | GROUP_HEADER
  | DETAILS
  | GROUP_FOOTER
  | REPORT_FOOTER
  | PAGE_FOOTER
deriving DecidableEq, Repr

/-- String value of a `SectionType` member. -/
def SectionType.value : SectionType → String
  | .REPORT_HEADER => "report_header"
  | .PAGE_HEADER => "page_header"
  | .GROUP_HEADER => "group_header"
  | .DETAILS => "details"
  | .GROUP_FOOTER => "group_footer"
  | .REPORT_FOOTER => "report_footer"
  | .PAGE_FOOTER => "page_footer"

/-- Values stored inside the free-form dictionaries of the model
(`Dict[str, Any]` payloads and the `before_value` / `after_value`
snapshots). The snapshots built by the edit service hold booleans,
integers, strings, or `None`. -/
inductive Val where
  | vStr (s : String)
  | vInt (i : Int)
  | vBool (b : Bool)
  | vNone
deriving DecidableEq, Repr

/-- Database field information (`DatabaseField`). -/
structure DatabaseField where
  table_name : String
  field_name : String
  data_type : String
  is_key : Bool := false
  description : Option String := none
deriving DecidableEq, Repr

/-- Crystal Reports field definition (`ReportField`). The pydantic
validator defaults `display_name` to `name`; concrete values below are
built with that default applied. The source attribute `section` is named
`sect` here because `section` is a Lean keyword. -/
structure ReportField where
  id : String
  name : String
  display_name : String
  field_type : FieldType
  sect : SectionType
  x : Int := 0
  y : Int := 0
  width : Int := 0
  height : Int := 0
  visible : Bool := true
  formula : Option String := none
  format : Option (List (String × Val)) := none
  database_field : Option DatabaseField := none
deriving DecidableEq, Repr

/-- Crystal Reports section definition (`ReportSection`). -/
structure ReportSection where
  id : String
  section_type : SectionType
  name : String
  height : Int := 0
  visible : Bool := true
  fields : List ReportField := []
deriving DecidableEq, Repr

/-- Database connection information (`DatabaseConnection`). -/
structure DatabaseConnection where
  driver : String
  server : Option String := none
  database : Option String := none
  username : Option String := none
  connection_string : Option String := none
deriving DecidableEq, Repr

/-- Complete Crystal Reports metadata (`ReportMetadata`). Timestamps are
kept as opaque ISO strings since no claim computes with them. -/
structure ReportMetadata where
  id : String
  filename : String
  title : Option String := none
  description : Option String := none
  author : Option String := none
  created_date : Option String := none
  modified_date : Option String := none
  sections : List ReportSection := []
  parameters : List ReportField := []
  formulas : List ReportField := []
  database_connections : List DatabaseConnection := []
  tables : List String := []
  status : ReportStatus := .UPLOADING
  file_size : Nat := 0
  parsed_at : Option String := none
  error_message : Option String := none
deriving DecidableEq, Repr

/-- Types of edit operations (`EditPatchOperation`). -/
inductive EditPatchOperation where
  | HIDE
  | SHOW
  | MOVE
  | RENAME
  | RESIZE
  | FORMAT
  | DELETE
deriving DecidableEq, Repr

/-- String value of an `EditPatchOperation` member. -/
def EditPatchOperation.value : EditPatchOperation → String
  | .HIDE => "hide"
  | .SHOW => "show"
  | .MOVE => "move"
  | .RENAME => "rename"
  | .RESIZE => "resize"
  | .FORMAT => "format"
  | .DELETE => "delete"

/-- Single edit operation patch (`EditPatch`). `new_position` is the
`Dict[str, int]` position map, modelled as an association list. The
timestamps (`created_at`, `applied_at`) carry no logic and are omitted. -/
structure EditPatch where
  id : String
  operation : EditPatchOperation
  target_field_id : String
  target_section_id : Option String := none
  new_name : Option String := none
  new_position : Option (List (String × Int)) := none
  new_format : Option (List (String × Val)) := none
  visible : Option Bool := none
  description : Option String := none
deriving DecidableEq, Repr

/-- The four keys required of a position map by `EditPatch.validate_position`. -/
def requiredPositionKeys : List String := ["x", "y", "width", "height"]

/-- The `validate_position` pydantic validator of `EditPatch`: a present
position map must contain all of `x`, `y`, `width`, `height`, each bound
to a non-negative integer; otherwise construction raises `ValueError`. -/
def validate_position (v : Option (List (String × Int))) :
    Except String (Option (List (String × Int))) :=
  match v with
  | none => .ok none
  | some pos =>
    if requiredPositionKeys.all (fun key => (pos.lookup key).isSome) then
      if requiredPositionKeys.all
          (fun key => match pos.lookup key with
            | some n => decide (0 ≤ n)
            | none => false) then
        .ok (some pos)
      else
        .error "Position values must be non-negative integers"
    else
      .error "Position must contain all keys: x, y, width, height"

/-- Construction of an `EditPatch`: pydantic runs `validate_position` on
the `new_position` payload and rejects the whole construction when it
raises. -/
def mkEditPatch (id : String) (operation : EditPatchOperation)
    (target_field_id : String) (target_section_id : Option String)
    (new_name : Option String) (new_position : Option (List (String × Int)))
    (new_format : Option (List (String × Val))) (visible : Option Bool)
    (description : Option String) : Except String EditPatch :=
  match validate_position new_position with
  | .error e => .error e
  | .ok vp =>
    .ok { id, operation, target_field_id, target_section_id, new_name,
          new_position := vp, new_format, visible, description }

/-- Audit log entry for report changes (`ChangeLogEntry`). The generated
`id` and the `timestamp` carry no logic and are omitted; `before_value`
and `after_value` are the structured snapshots built by the edit
service. -/
structure ChangeLogEntry where
  report_id : String
  patch_id : String
  operation : EditPatchOperation
  field_name : String
  field_id : String
  before_value : Option (List (String × Val)) := none
  after_value : Option (List (String × Val)) := none
  user_id : Option String := none
  description : Option String := none
  success : Bool := true
  error_message : Option String := none
deriving DecidableEq, Repr

/-! ## Configuration (src/backend/app/core/config.py) -/

/-- The settings consulted by the upload endpoint. -/
structure Settings where
  MAX_FILE_SIZE : Nat
  UPLOAD_DIR : String
  ALLOWED_EXTENSIONS : List String
deriving DecidableEq, Repr

/-- Default settings: 25 MiB ceiling, `./uploads`, only `.rpt` allowed. -/
def defaultSettings : Settings :=
  { MAX_FILE_SIZE := 25 * 1024 * 1024
    UPLOAD_DIR := "./uploads"
    ALLOWED_EXTENSIONS := [".rpt"] }

/-! ## Upload validation (src/backend/app/api/v1/endpoints/upload.py) -/

/-- Index of the last occurrence of a character in a character list. -/
def rfindIdx? (c : Char) (cs : List Char) : Option Nat :=
  match cs.reverse.findIdx? (fun d => d = c) with
  | some i => some (cs.length - 1 - i)
  | none => none

/-- Final path component, as `pathlib.PurePath.name` for the plain
filenames handled by the upload endpoint. -/
def pathName (filename : String) : String :=
  match rfindIdx? '/' filename.data with
  | some i => String.mk (filename.data.drop (i + 1))
  | none => filename

/-- File extension of a filename, as `pathlib.PurePath.suffix`: the part
of the name from its last dot, nonempty only when that dot is neither the
first nor the last character of the name. -/
def pathSuffix (filename : String) : String :=
  let name := (pathName filename).data
  match rfindIdx? '.' name with
  | some i => if 0 < i ∧ i < name.length - 1 then String.mk (name.drop i) else ""
  | none => ""

/-- ASCII lowercasing of a string, as `str.lower` on the extensions
handled here. -/
def strLower (s : String) : String := String.mk (s.data.map Char.toLower)

/-- Outcome of the synchronous part of `upload_report`: the HTTP status
code raised or returned, whether the initial report record was created,
whether the uploaded file was written to disk, and the processing status
carried by a success response. -/
structure UploadOutcome where
  status_code : Nat
  record_created : Bool
  file_written : Bool
  response_status : Option ReportStatus
deriving DecidableEq, Repr

/-- Synchronous validation and persistence sequence of `upload_report`
(the happy path of the file write and record creation): reject a missing
filename (400), then a disallowed extension (400), then oversized content
(413), then empty content (400), all before any file is written or any
record created; otherwise write the file, create the record, schedule the
background task, and answer 200 with status `parsing`. -/
def upload_report (s : Settings) (filename : String) (content_size : Nat) :
    UploadOutcome :=
  if filename = "" then
    { status_code := 400, record_created := false, file_written := false,
      response_status := none }
  else if strLower (pathSuffix filename) ∉ s.ALLOWED_EXTENSIONS then
    { status_code := 400, record_created := false, file_written := false,
      response_status := none }
  else if content_size > s.MAX_FILE_SIZE then
    { status_code := 413, record_created := false, file_written := false,
      response_status := none }
  else if content_size = 0 then
    { status_code := 400, record_created := false, file_written := false,
      response_status := none }
  else
    { status_code := 200, record_created := true, file_written := true,
      response_status := some .PARSING }

/-! ## Edit service (src/backend/app/services/edit_service.py) -/

/-- Truthiness of an optional string (Python `if not patch.new_name`):
an absent or empty string is falsy. -/
def truthyStr : Option String → Bool
  | none => false
  | some s => s ≠ ""

/-- Truthiness of an optional list payload (Python `if not
patch.new_position`): an absent or empty dictionary is falsy. -/
def truthyList {α : Type} : Option (List α) → Bool
  | none => false
  | some l => !l.isEmpty

/-- The `EditService._find_field_by_id` search: section fields in section
order, then parameters, then formulas; first match wins. -/
def find_field_by_id (metadata : ReportMetadata) (field_id : String) :
    Option ReportField :=
  match metadata.sections.findSome?
      (fun s => s.fields.find? (fun f => f.id = field_id)) with
  | some f => some f
  | none =>
    match metadata.parameters.find? (fun p => p.id = field_id) with
    | some p => some p
    | none => metadata.formulas.find? (fun f => f.id = field_id)

/-- The `EditService._find_section_for_field` search: the name of the
first section containing the field, `"Other"` when none does. -/
def find_section_for_field (metadata : ReportMetadata) (field_id : String) :
    String :=
  match metadata.sections.findSome?
      (fun s => (s.fields.find? (fun f => f.id = field_id)).map
        (fun _ => s.name)) with
  | some n => n
  | none => "Other"

/-- Validation errors contributed by one patch in
`EditService._validate_patches`: a missing target short-circuits (the
Python `continue`), otherwise the operation-specific payload requirement
is checked with Python truthiness. -/
def patchErrors (metadata : ReportMetadata) (patch : EditPatch) : List String :=
  match find_field_by_id metadata patch.target_field_id with
  | none => ["Field " ++ patch.target_field_id ++ " not found"]
  | some _ =>
    match patch.operation with
    | .RENAME =>
      if truthyStr patch.new_name then []
      else ["Patch " ++ patch.id ++ ": new_name required for rename operation"]
    | .MOVE =>
      if truthyList patch.new_position then []
      else ["Patch " ++ patch.id ++ ": new_position required for move operation"]
    | .RESIZE =>
      if truthyList patch.new_position then []
      else ["Patch " ++ patch.id ++ ": new_position required for resize operation"]
    | .FORMAT =>
      if truthyList patch.new_format then []
      else ["Patch " ++ patch.id ++ ": new_format required for format operation"]
    | _ => []

/-- `EditService._validate_patches`: the aggregated validation errors of
every patch, in patch order, never short-circuited across patches. -/
def validate_patches (metadata : ReportMetadata) (patches : List EditPatch) :
    List String :=
  (patches.map (patchErrors metadata)).flatten

/-- The combined message of the `ValueError` raised by preview/apply when
validation fails. -/
def validationFailureMessage (errors : List String) : String :=
  "Patch validation failed: " ++ String.intercalate "; " errors

/-- `EditService._apply_patch_to_field`: the field updated by one patch.
`hide`/`show` set visibility absolutely; `rename` requires a truthy name;
`move`/`resize` take each coordinate from the position map with the
current value as default; `format` replaces the format map; `delete` has
no handling. -/
def apply_patch_to_field (f : ReportField) (patch : EditPatch) : ReportField :=
  match patch.operation with
  | .HIDE => { f with visible := false }
  | .SHOW => { f with visible := true }
  | .RENAME =>
    match patch.new_name with
    | some n => if n ≠ "" then { f with display_name := n } else f
    | none => f
  | .MOVE | .RESIZE =>
    match patch.new_position with
    | some pos =>
      if pos ≠ [] then
        { f with
          x := (pos.lookup "x").getD f.x
          y := (pos.lookup "y").getD f.y
          width := (pos.lookup "width").getD f.width
          height := (pos.lookup "height").getD f.height }
      else f
    | none => f
  | .FORMAT =>
    match patch.new_format with
    | some fmt => if fmt ≠ [] then { f with format := some fmt } else f
    | none => f
  | .DELETE => f

/-- Application of a patch to the first field of a list matching the
target id (the inner `break` of `_apply_patches_to_metadata`). -/
def applyToFirstMatch (field_id : String) (patch : EditPatch) :
    List ReportField → List ReportField
  | [] => []
  | f :: fs =>
    if f.id = field_id then apply_patch_to_field f patch :: fs
    else f :: applyToFirstMatch field_id patch fs

/-- One iteration of the patch loop of
`EditService._apply_patches_to_metadata`: the patch is applied to the
first matching field of every section (the `break` leaves only the inner
loop), to the first matching parameter, and to the first matching
formula. -/
def apply_patch_step (m : ReportMetadata) (patch : EditPatch) : ReportMetadata :=
  { m with
    sections := m.sections.map
      (fun s => { s with
        fields := applyToFirstMatch patch.target_field_id patch s.fields })
    parameters := applyToFirstMatch patch.target_field_id patch m.parameters
    formulas := applyToFirstMatch patch.target_field_id patch m.formulas }

/-- `EditService._apply_patches_to_metadata`: all patches applied in order
to a copy of the metadata. -/
def apply_patches_to_metadata (metadata : ReportMetadata)
    (patches : List EditPatch) : ReportMetadata :=
  patches.foldl apply_patch_step metadata

/-- `EditService._generate_warnings`: hide warnings for currency/formula
fields, a bulk-rename warning above five rename patches, and a warning for
each move/resize to a negative coordinate. -/
def generate_warnings (metadata : ReportMetadata) (patches : List EditPatch) :
    List String :=
  let hideWarnings := patches.filterMap (fun patch =>
    if patch.operation = .HIDE then
      match find_field_by_id metadata patch.target_field_id with
      | some f =>
        if f.field_type.value ∈ ["currency", "formula"] then
          some ("Hiding " ++ f.field_type.value ++ " field '" ++
            f.name ++ "' may affect report calculations")
        else none
      | none => none
    else none)
  let renamePatches := patches.filter (fun p => p.operation = .RENAME)
  let renameWarnings :=
    if renamePatches.length > 5 then
      ["Renaming " ++ toString renamePatches.length ++
        " fields at once may cause confusion"]
    else []
  let moveWarnings := patches.filterMap (fun patch =>
    if (patch.operation = .MOVE ∨ patch.operation = .RESIZE) then
      match patch.new_position with
      | some pos =>
        if pos ≠ [] ∧ ((pos.lookup "x").getD 0 < 0 ∨ (pos.lookup "y").getD 0 < 0)
        then some "Moving field to negative coordinates may make it invisible"
        else none
      | none => none
    else none)
  hideWarnings ++ renameWarnings ++ moveWarnings

/-- `EditService._estimate_impact`: a coarse classification by patch
count. -/
def estimate_impact (patches : List EditPatch) : String :=
  if patches.length = 1 then "Low impact - single field change"
  else if patches.length ≤ 5 then
    "Medium impact - " ++ toString patches.length ++ " field changes"
  else
    "High impact - " ++ toString patches.length ++
      " field changes across multiple operations"

/-- Removal of duplicates preserving first-seen order, as Python
`list(dict.fromkeys(...))`: `seen` is the set of keys already emitted. -/
def dedupFirstAux (seen : List String) : List String → List String
  | [] => []
  | x :: xs =>
    if x ∈ seen then dedupFirstAux seen xs
    else x :: dedupFirstAux (seen ++ [x]) xs

/-- Removal of duplicates preserving first-seen order, starting from no
seen keys. -/
def dedupFirst (l : List String) : List String := dedupFirstAux [] l

/-- HTML block rendered by `_generate_html_diff` for one changed field. -/
def changeHtml (patch : EditPatch) (f : ReportField) : List String :=
  let cssClass :=
    if patch.operation = .HIDE then "diff-removed"
    else if patch.operation = .SHOW then "diff-added"
    else "diff-modified"
  ["<div class=\"diff-field " ++ cssClass ++ "\">",
   "<strong>" ++ f.name ++ "</strong> (" ++ f.field_type.value ++ ")<br>",
   "Operation: " ++ patch.operation.value ++ "<br>"] ++
  (if patch.operation = .RENAME ∧ truthyStr patch.new_name then
    ["New name: " ++ patch.new_name.getD "" ++ "<br>"] else []) ++
  (match patch.new_position with
   | some pos =>
     if pos ≠ [] then
       ["New position: x=" ++ toString ((pos.lookup "x").getD 0) ++
        ", y=" ++ toString ((pos.lookup "y").getD 0) ++ "<br>"]
     else []
   | none => []) ++
  (match patch.description with
   | some d => if d ≠ "" then ["Description: " ++ d ++ "<br>"] else []
   | none => []) ++
  ["</div>"]

/-- `EditService._generate_html_diff`: the style header, then one block
per changed field grouped under its section heading, section keys in
first-insertion order as in the Python dictionary. -/
def generate_html_diff (original : ReportMetadata) (patches : List EditPatch) :
    String :=
  let headParts :=
    ["<div class=\"crystal-report-diff\">",
     "<style>",
     ".diff-field \x7b border: 1px solid \x23ccc; margin: 5px; padding: 10px; \x7d",
     ".diff-added \x7b background-color: \x23d4edda; border-color: \x23c3e6cb; \x7d",
     ".diff-removed \x7b background-color: \x23f8d7da; border-color: \x23f5c6cb; \x7d",
     ".diff-modified \x7b background-color: \x23fff3cd; border-color: \x23ffeaa7; \x7d",
     ".diff-section \x7b font-weight: bold; margin-top: 20px; \x7d",
     "</style>"]
  let changes := patches.filterMap (fun patch =>
    (find_field_by_id original patch.target_field_id).map
      (fun f => (find_section_for_field original patch.target_field_id,
        patch, f)))
  let sectionNames := dedupFirst (changes.map (fun c => c.1))
  let body := (sectionNames.map (fun sn =>
    ("<div class=\"diff-section\">Section: " ++ sn ++ "</div>") ::
    ((changes.filter (fun c => c.1 = sn)).map
      (fun c => changeHtml c.2.1 c.2.2)).flatten)).flatten
  String.intercalate "\n" (headParts ++ body ++ ["</div>"])

/-- Preview of edit changes (`EditPreviewResponse`). -/
structure EditPreviewResponse where
  patches : List EditPatch
  affected_fields : List ReportField
  html_diff : String
  warnings : List String
  estimated_impact : String
deriving DecidableEq, Repr

/-- `EditService.preview_edits`: validate, and on any validation error
raise before producing anything; otherwise apply the patches to a copy,
render the diff, collect affected fields, warnings and the impact
estimate. -/
def preview_edits (metadata : ReportMetadata) (patches : List EditPatch) :
    Except String EditPreviewResponse :=
  let errors := validate_patches metadata patches
  if errors ≠ [] then .error (validationFailureMessage errors)
  else
    .ok { patches := patches
          affected_fields := patches.filterMap
            (fun p => find_field_by_id metadata p.target_field_id)
          html_diff := generate_html_diff metadata patches
          warnings := generate_warnings metadata patches
          estimated_impact := estimate_impact patches }

/-- Before/after value snapshots of `_create_change_log_entry`,
determined by the operation and the current (unmutated) field state. -/
def change_snapshots (field? : Option ReportField) (patch : EditPatch) :
    Option (List (String × Val)) × Option (List (String × Val)) :=
  match field? with
  | none => (none, none)
  | some f =>
    match patch.operation with
    | .HIDE => (some [("visible", .vBool f.visible)],
                some [("visible", .vBool false)])
    | .SHOW => (some [("visible", .vBool f.visible)],
                some [("visible", .vBool true)])
    | .RENAME => (some [("display_name", .vStr f.display_name)],
                  some [("display_name",
                    match patch.new_name with
                    | some n => .vStr n
                    | none => .vNone)])
    | .MOVE | .RESIZE =>
      (some [("x", .vInt f.x), ("y", .vInt f.y),
             ("width", .vInt f.width), ("height", .vInt f.height)],
       patch.new_position.map (fun pos =>
         pos.map (fun kv => (kv.1, Val.vInt kv.2))))
    | .FORMAT => (f.format, patch.new_format)
    | .DELETE => (none, none)

/-- `EditService._create_change_log_entry`: one audit entry per patch
attempt, with the before/after snapshots of `change_snapshots` and the
field name looked up in the (unmutated) metadata record. -/
def create_change_log_entry (metadata : ReportMetadata) (patch : EditPatch)
    (user_id : Option String) (success : Bool)
    (error_message : Option String) : ChangeLogEntry :=
  let field? := find_field_by_id metadata patch.target_field_id
  let field_name := match field? with
    | some f => f.name
    | none => "Unknown"
  { report_id := metadata.id
    patch_id := patch.id
    operation := patch.operation
    field_name := field_name
    field_id := patch.target_field_id
    before_value := (change_snapshots field? patch).1
    after_value := (change_snapshots field? patch).2
    user_id := user_id
    description := patch.description
    success := success
    error_message := error_message }

/-- Accumulated effects of the per-patch loop of `apply_edits`: applied
patch ids, failed `{patch_id, error}` pairs, change-log entries, and the
ids passed to the (simulated) file mutation `_apply_single_patch`. -/
structure ApplyLoopState where
  applied : List String
  failed : List (String × String)
  entries : List ChangeLogEntry
  mutation_calls : List String
deriving DecidableEq, Repr

/-- The per-patch loop of `EditService.apply_edits`, processed in caller
order. The outcome of the file mutation is an oracle `applyExc`: `none`
means `_apply_single_patch` returned, `some e` means it raised an
exception with message `e`. On a dry run the mutation is not called and
the patch always succeeds; on failure the patch joins the failed list and
its change-log entry records the error, and the loop continues. -/
def apply_loop (metadata : ReportMetadata) (user_id : Option String)
    (dry_run : Bool) (applyExc : EditPatch → Option String) :
    List EditPatch → ApplyLoopState
  | [] => { applied := [], failed := [], entries := [], mutation_calls := [] }
  | patch :: rest =>
    let tail := apply_loop metadata user_id dry_run applyExc rest
    if dry_run then
      { applied := patch.id :: tail.applied
        failed := tail.failed
        entries := create_change_log_entry metadata patch user_id true none ::
          tail.entries
        mutation_calls := tail.mutation_calls }
    else
      match applyExc patch with
      | none =>
        { applied := patch.id :: tail.applied
          failed := tail.failed
          entries := create_change_log_entry metadata patch user_id true none ::
            tail.entries
          mutation_calls := patch.id :: tail.mutation_calls }
      | some e =>
        { applied := tail.applied
          failed := (patch.id, e) :: tail.failed
          entries :=
            create_change_log_entry metadata patch user_id false (some e) ::
              tail.entries
          mutation_calls := patch.id :: tail.mutation_calls }

/-- Response of `apply_edits` (`ApplyEditsResponse`), with the backup
path abstracted to whether a backup file was created and the observed
mutation calls kept for frame reasoning. -/
structure ApplyEditsResult where
  success : Bool
  applied_patches : List String
  failed_patches : List (String × String)
  backup_created : Bool
  change_log_entries : List ChangeLogEntry
  mutation_calls : List String
deriving DecidableEq, Repr

/-- `EditService.apply_edits`: re-validate and abort on any validation
error (the raised `ValueError` is caught by the top-level handler, which
answers with a single failed `"all"` entry and nothing applied, logged or
backed up); otherwise back up the file when requested, not a dry run, and
the file exists, then run the per-patch loop and succeed only if no patch
failed. -/
def apply_edits (metadata : ReportMetadata) (patches : List EditPatch)
    (user_id : Option String) (dry_run : Bool) (create_backup : Bool)
    (file_exists : Bool) (applyExc : EditPatch → Option String) :
    ApplyEditsResult :=
  let errors := validate_patches metadata patches
  if errors ≠ [] then
    { success := false
      applied_patches := []
      failed_patches := [("all", validationFailureMessage errors)]
      backup_created := false
      change_log_entries := []
      mutation_calls := [] }
  else
    let backup := create_backup ∧ ¬dry_run ∧ file_exists
    let st := apply_loop metadata user_id dry_run applyExc patches
    { success := st.failed = []
      applied_patches := st.applied
      failed_patches := st.failed
      backup_created := backup
      change_log_entries := st.entries
      mutation_calls := st.mutation_calls }

/-! ## Query suggestions (src/backend/app/api/v1/endpoints/query.py) -/

/-- Folding state of the field scan of `_generate_query_suggestions`:
distinct field names, distinct formula-field names and distinct
currency-field names, each in first-seen order. -/
structure NameScan where
  field_names : List String
  formula_fields : List String
  currency_fields : List String
deriving DecidableEq, Repr

/-- One step of the field scan: append the field name to each list it is
not yet in (conditioned on the field type for the last two). -/
def scanField (acc : NameScan) (f : ReportField) : NameScan :=
  let ns := if f.name ∈ acc.field_names then acc.field_names
    else acc.field_names ++ [f.name]
  let fs := if f.field_type.value = "formula" ∧ f.name ∉ acc.formula_fields
    then acc.formula_fields ++ [f.name] else acc.formula_fields
  let cs := if f.field_type.value = "currency" ∧ f.name ∉ acc.currency_fields
    then acc.currency_fields ++ [f.name] else acc.currency_fields
  { field_names := ns, formula_fields := fs, currency_fields := cs }

/-- The field scan over all sections of the metadata, in order. -/
def scanNames (metadata : ReportMetadata) : NameScan :=
  metadata.sections.foldl
    (fun acc s => s.fields.foldl scanField acc)
    { field_names := [], formula_fields := [], currency_fields := [] }

/-- The three generic structural questions always suggested first. -/
def genericQuestions : List String :=
  ["What sections does this report have?",
   "How many fields are in this report?",
   "What database tables are used?"]

/-- The two per-field questions for up to the first three distinct field
names. -/
def fieldNameQuestions (names : List String) : List String :=
  (names.take 3).flatMap (fun n =>
    ["Where does " ++ n ++ " come from?",
     "Show me details about the " ++ n ++ " field"])

/-- The formula questions: an overview question whenever a formula field
exists, and a question about the first formula field when its name is
truthy. -/
def formulaQuestions (formula_fields : List String) : List String :=
  match formula_fields with
  | [] => []
  | n :: _ =>
    "Which fields use formulas?" ::
      (if n ≠ "" then ["What is the formula for " ++ n ++ "?"] else [])

/-- The currency questions, mirroring the formula questions. -/
def currencyQuestions (currency_fields : List String) : List String :=
  match currency_fields with
  | [] => []
  | n :: _ =>
    "Show me all currency fields" ::
      (if n ≠ "" then ["How is " ++ n ++ " calculated?"] else [])

/-- The database questions: a connections question when any connection is
configured, a tables question when any table is used, and a relationships
question when more than one table is used. -/
def databaseQuestions (metadata : ReportMetadata) : List String :=
  (if !metadata.database_connections.isEmpty then
    ["What database connections are configured?"] else []) ++
  (if !metadata.tables.isEmpty then
    "What tables are used in this report?" ::
      (if metadata.tables.length > 1 then ["How are the tables related?"]
       else [])
   else [])

/-- The parameter questions: an overview question plus one question per
the first two parameter names. -/
def parameterQuestions (metadata : ReportMetadata) : List String :=
  if !metadata.parameters.isEmpty then
    "What parameters does this report have?" ::
      (metadata.parameters.take 2).map
        (fun p => "How is the " ++ p.name ++ " parameter used?")
  else []

/-- The section-specific questions, keyed on which section types occur. -/
def sectionQuestions (metadata : ReportMetadata) : List String :=
  (if metadata.sections.any (fun s => s.section_type.value = "details") then
    ["What fields are in the Details section?"] else []) ++
  (if metadata.sections.any (fun s => s.section_type.value = "report_header")
   then ["What's displayed in the report header?"] else []) ++
  (if metadata.sections.any (fun s => s.section_type.value = "report_footer")
   then ["What totals are shown in the footer?"] else [])

/-- The full suggestion list before deduplication and truncation, in the
append order of `_generate_query_suggestions`. -/
def rawSuggestions (metadata : ReportMetadata) : List String :=
  let scan := scanNames metadata
  genericQuestions ++
    fieldNameQuestions scan.field_names ++
    formulaQuestions scan.formula_fields ++
    currencyQuestions scan.currency_fields ++
    databaseQuestions metadata ++
    parameterQuestions metadata ++
    sectionQuestions metadata

/-- `_generate_query_suggestions`: the raw suggestions, deduplicated
preserving first-seen order and truncated to at most 15 entries. -/
def generate_query_suggestions (metadata : ReportMetadata) : List String :=
  (dedupFirst (rawSuggestions metadata)).take 15

/-! ## Storage lifecycle
(src/backend/app/services/storage.py and the background task of
src/backend/app/api/v1/endpoints/upload.py) -/

/-- The stored report row as far as the lifecycle claims observe it:
processing status, error message, and the serialized metadata blob
(`metadata_json`, `None` until `store_metadata` runs). -/
structure ReportRecord where
  status : ReportStatus
  error_message : Option String
  metadata_json : Option ReportMetadata
deriving DecidableEq, Repr

/-- `StorageService.create_report_record`: the initial row, status
`uploading`, no error, no metadata blob. -/
def create_report_record : ReportRecord :=
  { status := .UPLOADING, error_message := none, metadata_json := none }

/-- `StorageService.store_metadata`: replace the metadata blob without
touching the status. -/
def store_metadata (r : ReportRecord) (m : ReportMetadata) : ReportRecord :=
  { r with metadata_json := some m }

/-- `StorageService.update_report_status`: set status and (optional)
error message. The `error_message` parameter defaults to `None` in the
source, so a status update without a message clears any stored one. -/
def update_report_status (r : ReportRecord) (status : ReportStatus)
    (error_message : Option String) : ReportRecord :=
  { r with status := status, error_message := error_message }

/-- The storage states produced by `process_report_background` after the
record exists, in execution order: on a successful parse the metadata is
stored and then the status flips to `ready`; on a parse failure the
status flips to `error` carrying the message. `parsed` is the outcome of
`parser.parse_report`. -/
def process_report_background (r : ReportRecord)
    (parsed : Except String ReportMetadata) : List ReportRecord :=
  match parsed with
  | .ok m =>
    [store_metadata r m,
     update_report_status (store_metadata r m) .READY none]
  | .error e =>
    [update_report_status r .ERROR (some e)]

/-- Every storage state of one report from record creation through the
background task, in order. -/
def reachableStates (parsed : Except String ReportMetadata) :
    List ReportRecord :=
  create_report_record :: process_report_background create_report_record parsed

/-! ## File utilities (src/backend/app/utils/file_utils.py) -/

/-- Decimal digit list of a natural number, most significant first, with
`0` rendered as the single digit `0` — the digit sequence of Python
`str(counter)`. -/
def natDigitsList (n : Nat) : List Nat :=
  if n = 0 then [0] else (Nat.digits 10 n).reverse

/-- Decimal string of a natural number, as Python `str(counter)`. -/
def natToString (n : Nat) : String :=
  ((natDigitsList n).map (fun d => Char.ofNat (48 + d))).asString

/-- `os.path.splitext`: split at the last dot of the final path
component, unless every character of that component before the dot is
itself a dot (so a leading-dot name has no extension). -/
def splitext (p : String) : String × String :=
  let cs := p.data
  match rfindIdx? '.' cs with
  | none => (p, "")
  | some di =>
    let fi : Nat := match rfindIdx? '/' cs with
      | some si => si + 1
      | none => 0
    if fi ≤ di ∧ ((cs.drop fi).take (di - fi)).any (fun c => c ≠ '.') then
      (String.mk (cs.take di), String.mk (cs.drop di))
    else (p, "")

/-- The candidate filename tried by the collision loop of
`get_unique_filename`: `f"{name}_{counter}{ext}"`. -/
def uniqueCandidate (name ext : String) (k : Nat) : String :=
  name ++ "_" ++ natToString k ++ ext

/-- The `while True` collision loop of `get_unique_filename`, with
explicit fuel: try `name_k ext` for `k = k0, k0+1, …` until the candidate
is not among the existing filenames. `uniqueLoop_spec` below shows the
fuel supplied by `get_unique_filename` is never exhausted. -/
def uniqueLoop (existing : List String) (name ext : String) :
    Nat → Nat → String
  | 0, k => uniqueCandidate name ext k
  | fuel + 1, k =>
    if uniqueCandidate name ext k ∈ existing then
      uniqueLoop existing name ext fuel (k + 1)
    else uniqueCandidate name ext k

/-- `get_unique_filename`, with the directory modelled as the finite list
of filenames existing in it: return the filename unchanged when it does
not collide, otherwise the first `stem_k.ext` (k = 1, 2, …) that does
not. -/
def get_unique_filename (existing : List String) (filename : String) :
    String :=
  if filename ∈ existing then
    let ne := splitext filename
    uniqueLoop existing ne.1 ne.2 (existing.length + 1) 1
  else filename

/-! ## Concrete sample values used by counterexamples and witnesses -/

/-- Sample field used by concrete checks. -/
def sampleField (i n : String) (ft : FieldType) : ReportField :=
  { id := i, name := n, display_name := n, field_type := ft, sect := .DETAILS }

/-- Sample details section with a currency, a formula and a string field. -/
def sampleSection : ReportSection :=
  { id := "s1", section_type := .DETAILS, name := "Details",
    fields := [sampleField "f1" "Amount" .CURRENCY,
               sampleField "f2" "Total" .FORMULA,
               sampleField "f3" "Customer" .STRING] }

/-- Sample parsed metadata. -/
def sampleMetadata : ReportMetadata :=
  { id := "r1", filename := "sales.rpt",
    sections := [sampleSection],
    parameters := [sampleField "p1" "StartDate" .PARAMETER],
    database_connections := [{ driver := "ODBC" }],
    tables := ["Orders", "Customers"],
    status := .READY }

/-! ## Claim theorems -/

/-- C3: the upload endpoint rejects a disallowed extension with a 400
before creating any record or writing any file; rejects zero-byte content
with a 400 before writing any file; accepts content of exactly the
configured maximum size; and rejects content one byte larger with a
413. -/
theorem upload_validation (fn : String) (n : Nat) :
    (fn ≠ "" → strLower (pathSuffix fn) ∉ defaultSettings.ALLOWED_EXTENSIONS →
      upload_report defaultSettings fn n =
        { status_code := 400, record_created := false, file_written := false,
          response_status := none }) ∧
    (fn ≠ "" → strLower (pathSuffix fn) ∈ defaultSettings.ALLOWED_EXTENSIONS →
      upload_report defaultSettings fn 0 =
        { status_code := 400, record_created := false, file_written := false,
          response_status := none }) ∧
    (fn ≠ "" → strLower (pathSuffix fn) ∈ defaultSettings.ALLOWED_EXTENSIONS →
      upload_report defaultSettings fn defaultSettings.MAX_FILE_SIZE =
        { status_code := 200, record_created := true, file_written := true,
          response_status := some .PARSING }) ∧
    (fn ≠ "" → strLower (pathSuffix fn) ∈ defaultSettings.ALLOWED_EXTENSIONS →
      upload_report defaultSettings fn (defaultSettings.MAX_FILE_SIZE + 1) =
        { status_code := 413, record_created := false, file_written := false,
          response_status := none }) := by
  refine ⟨fun hfn hext => ?_, fun hfn hext => ?_, fun hfn hext => ?_,
    fun hfn hext => ?_⟩ <;>
    simp only [upload_report, if_neg hfn]
  · rw [if_pos hext]
  · rw [if_neg (by simp [hext])]
    norm_num [defaultSettings]
  · rw [if_neg (by simp [hext])]
    norm_num [defaultSettings]
  · rw [if_neg (by simp [hext])]
    norm_num [defaultSettings]

/-- Witness for C3 at the concrete filenames `notes.txt` and
`sales.rpt`. -/
theorem upload_validation_witness :
    ((("notes.txt" : String) ≠ "" ∧
        strLower (pathSuffix "notes.txt") ∉ defaultSettings.ALLOWED_EXTENSIONS) ∧
      upload_report defaultSettings "notes.txt" 5 =
        { status_code := 400, record_created := false, file_written := false,
          response_status := none }) ∧
    ((("sales.rpt" : String) ≠ "" ∧
        strLower (pathSuffix "sales.rpt") ∈ defaultSettings.ALLOWED_EXTENSIONS) ∧
      upload_report defaultSettings "sales.rpt" 0 =
        { status_code := 400, record_created := false, file_written := false,
          response_status := none } ∧
      upload_report defaultSettings "sales.rpt" defaultSettings.MAX_FILE_SIZE =
        { status_code := 200, record_created := true, file_written := true,
          response_status := some .PARSING } ∧
      upload_report defaultSettings "sales.rpt"
          (defaultSettings.MAX_FILE_SIZE + 1) =
        { status_code := 413, record_created := false, file_written := false,
          response_status := none }) :=
  ⟨⟨by decide, (upload_validation "notes.txt" 5).1 (by decide) (by decide)⟩,
   ⟨by decide,
    (upload_validation "sales.rpt" 0).2.1 (by decide) (by decide),
    (upload_validation "sales.rpt" 0).2.2.1 (by decide) (by decide),
    (upload_validation "sales.rpt" 0).2.2.2 (by decide) (by decide)⟩⟩

/-- C6: constructing an `EditPatch` whose position map misses one of the
four required keys, or binds one of them to a negative integer, is
rejected by `validate_position`; a map with all four keys bound to
non-negative integers is accepted and the patch is built. -/
theorem position_validation (id tfid : String) (op : EditPatchOperation)
    (tsid nn : Option String) (nf : Option (List (String × Val)))
    (vis : Option Bool) (desc : Option String)
    (pos : List (String × Int)) :
    ((∃ k ∈ requiredPositionKeys, pos.lookup k = none) →
      ∃ e, mkEditPatch id op tfid tsid nn (some pos) nf vis desc = .error e) ∧
    ((∃ k ∈ requiredPositionKeys, ∃ n, pos.lookup k = some n ∧ n < 0) →
      ∃ e, mkEditPatch id op tfid tsid nn (some pos) nf vis desc = .error e) ∧
    ((∀ k ∈ requiredPositionKeys, ∃ n, pos.lookup k = some n ∧ 0 ≤ n) →
      mkEditPatch id op tfid tsid nn (some pos) nf vis desc =
        .ok { id := id, operation := op, target_field_id := tfid,
              target_section_id := tsid, new_name := nn,
              new_position := some pos, new_format := nf, visible := vis,
              description := desc }) := by
  refine ⟨?_, ?_, ?_⟩
  · rintro ⟨k, hk, hnone⟩
    have hall : ¬ (requiredPositionKeys.all
        (fun key => (pos.lookup key).isSome) = true) := by
      simp only [List.all_eq_true]
      intro h
      have := h k hk
      rw [hnone] at this
      simp at this
    simp only [mkEditPatch, validate_position, if_neg hall]
    exact ⟨_, rfl⟩
  · rintro ⟨k, hk, n, hsome, hneg⟩
    by_cases hall : requiredPositionKeys.all
        (fun key => (pos.lookup key).isSome) = true
    · have hall2 : ¬ (requiredPositionKeys.all
          (fun key => match pos.lookup key with
            | some n => decide (0 ≤ n)
            | none => false) = true) := by
        simp only [List.all_eq_true]
        intro h
        have := h k hk
        rw [hsome] at this
        simp at this
        omega
      simp only [mkEditPatch, validate_position, if_pos hall, if_neg hall2]
      exact ⟨_, rfl⟩
    · simp only [mkEditPatch, validate_position, if_neg hall]
      exact ⟨_, rfl⟩
  · intro h
    have hall : requiredPositionKeys.all
        (fun key => (pos.lookup key).isSome) = true := by
      simp only [List.all_eq_true]
      intro k hk
      obtain ⟨n, hsome, _⟩ := h k hk
      simp [hsome]
    have hall2 : requiredPositionKeys.all
        (fun key => match pos.lookup key with
          | some n => decide (0 ≤ n)
          | none => false) = true := by
      simp only [List.all_eq_true]
      intro k hk
      obtain ⟨n, hsome, hnn⟩ := h k hk
      rw [hsome]
      simpa using hnn
    simp only [mkEditPatch, validate_position, if_pos hall, if_pos hall2]

/-- Witness for C6 at three concrete position maps: one missing a key,
one with a negative width, one valid. -/
theorem position_validation_witness :
    ((∃ k ∈ requiredPositionKeys,
        ([("x", (1 : Int))].lookup k) = none) ∧
      ∃ e, mkEditPatch "q1" .MOVE "f1" none none (some [("x", 1)]) none none
        none = .error e) ∧
    ((∃ k ∈ requiredPositionKeys, ∃ n,
        ([("x", (0 : Int)), ("y", 0), ("width", -3), ("height", 4)].lookup k) =
          some n ∧ n < 0) ∧
      ∃ e, mkEditPatch "q2" .RESIZE "f1" none none
        (some [("x", 0), ("y", 0), ("width", -3), ("height", 4)]) none none
        none = .error e) ∧
    ((∀ k ∈ requiredPositionKeys, ∃ n,
        ([("x", (1 : Int)), ("y", 2), ("width", 3), ("height", 4)].lookup k) =
          some n ∧ 0 ≤ n) ∧
      mkEditPatch "q3" .MOVE "f1" none none
          (some [("x", 1), ("y", 2), ("width", 3), ("height", 4)]) none none
          none =
        .ok { id := "q3", operation := .MOVE, target_field_id := "f1",
              target_section_id := none, new_name := none,
              new_position := some [("x", 1), ("y", 2), ("width", 3),
                ("height", 4)],
              new_format := none, visible := none, description := none }) :=
  ⟨⟨by decide, (position_validation "q1" "f1" .MOVE none none none none none
      [("x", 1)]).1 (by decide)⟩,
   ⟨by decide, (position_validation "q2" "f1" .RESIZE none none none none none
      [("x", 0), ("y", 0), ("width", -3), ("height", 4)]).2.1 (by decide)⟩,
   ⟨by decide, (position_validation "q3" "f1" .MOVE none none none none none
      [("x", 1), ("y", 2), ("width", 3), ("height", 4)]).2.2 (by decide)⟩⟩

/-- C1 counterexample: along the concrete successful background-parse
execution for a freshly created report, the stored status never equals
`parsing`, refuting the claim that some reachable stored state does. -/
theorem upload_status_counterexample :
    ¬ ∃ r ∈ reachableStates (.ok sampleMetadata), r.status = .PARSING := by
  decide

/-- C1 amended: the stored status is `uploading` at creation, stays
`uploading` throughout background processing, and is then set directly to
exactly one of `ready` or `error` — never both, never reverting, and
never passing through a stored `parsing` state; the `parsing` value
appears only in the upload HTTP response. -/
theorem upload_status_lifecycle (parsed : Except String ReportMetadata) :
    ((reachableStates parsed).map (fun r => r.status) =
        [.UPLOADING, .UPLOADING, .READY] ∨
      (reachableStates parsed).map (fun r => r.status) =
        [.UPLOADING, .ERROR]) ∧
    ReportStatus.PARSING ∉ (reachableStates parsed).map (fun r => r.status) ∧
    ¬ (ReportStatus.READY ∈ (reachableStates parsed).map (fun r => r.status) ∧
       ReportStatus.ERROR ∈ (reachableStates parsed).map (fun r => r.status)) ∧
    (upload_report defaultSettings "sales.rpt" 1).response_status =
      some .PARSING := by
  obtain ⟨m⟩ | ⟨e⟩ := parsed <;>
    refine ⟨?_, ?_, ?_, by decide⟩ <;>
    simp [reachableStates, process_report_background, create_report_record,
      store_metadata, update_report_status]

/-- C8 counterexample: at the concrete state reached between the
store-metadata step and the status update, the metadata blob is present
while the stored status is still `uploading`, refuting the claimed
invariant. -/
theorem metadata_presence_counterexample :
    ¬ (∀ r ∈ reachableStates (.ok sampleMetadata),
        (r.metadata_json ≠ none → r.status = .READY) ∧
        (r.metadata_json = none →
          r.status = .PARSING ∨ r.status = .ERROR)) := by
  decide

/-- C8 amended: in every reachable storage state, a record with status
`ready` has the metadata blob present, a record without metadata has
status `uploading` or `error` (never `ready`), and a record with metadata
has status `uploading` (between the store-metadata step and the status
update) or `ready`. -/
theorem metadata_presence_invariant (parsed : Except String ReportMetadata)
    (r : ReportRecord) (hr : r ∈ reachableStates parsed) :
    (r.status = .READY → r.metadata_json ≠ none) ∧
    (r.metadata_json = none → r.status = .UPLOADING ∨ r.status = .ERROR) ∧
    (r.metadata_json ≠ none →
      r.status = .UPLOADING ∨ r.status = .READY) := by
  obtain ⟨m⟩ | ⟨e⟩ := parsed <;>
    simp only [reachableStates, process_report_background, create_report_record,
      store_metadata, update_report_status, List.mem_cons,
      List.mem_singleton, List.not_mem_nil, or_false] at hr
  · rcases hr with rfl | rfl <;> simp
  · rcases hr with rfl | rfl | rfl <;> simp

/-- Witness for C8 at the initial record of the concrete successful
trace. -/
theorem metadata_presence_invariant_witness :
    (create_report_record ∈ reachableStates (.ok sampleMetadata)) ∧
    ((create_report_record.status = .READY →
        create_report_record.metadata_json ≠ none) ∧
     (create_report_record.metadata_json = none →
        create_report_record.status = .UPLOADING ∨
          create_report_record.status = .ERROR) ∧
     (create_report_record.metadata_json ≠ none →
        create_report_record.status = .UPLOADING ∨
          create_report_record.status = .READY)) :=
  ⟨by decide,
   metadata_presence_invariant (.ok sampleMetadata) create_report_record
     (by decide)⟩

/-- Closed form of the per-patch loop in a non-dry run: applied ids are
the ids of the patches whose mutation did not raise, in order; failed
pairs are the ids and messages of those that raised, in order; one
change-log entry per patch records its outcome; every patch reaches the
mutation call. -/
theorem apply_loop_run (md : ReportMetadata) (uid : Option String)
    (exc : EditPatch → Option String) (patches : List EditPatch) :
    apply_loop md uid false exc patches =
      { applied := (patches.filter (fun p => (exc p).isNone)).map
          (fun p => p.id)
        failed := (patches.filter (fun p => (exc p).isSome)).map
          (fun p => (p.id, (exc p).getD ""))
        entries := patches.map (fun p =>
          match exc p with
          | none => create_change_log_entry md p uid true none
          | some e => create_change_log_entry md p uid false (some e))
        mutation_calls := patches.map (fun p => p.id) } := by
  induction patches with
  | nil => rfl
  | cons p ps ih =>
    cases hexc : exc p with
    | none => simp [apply_loop, hexc, ih, List.filter_cons]
    | some e => simp [apply_loop, hexc, ih, List.filter_cons]

/-- Closed form of the per-patch loop in a dry run: every patch succeeds,
no mutation is called, one success entry is logged per patch. -/
theorem apply_loop_dry (md : ReportMetadata) (uid : Option String)
    (exc : EditPatch → Option String) (patches : List EditPatch) :
    apply_loop md uid true exc patches =
      { applied := patches.map (fun p => p.id)
        failed := []
        entries := patches.map
          (fun p => create_change_log_entry md p uid true none)
        mutation_calls := [] } := by
  induction patches with
  | nil => rfl
  | cons p ps ih => simp [apply_loop, ih]

/-- Lengths of the kept and dropped parts of a filter sum to the original
length. -/
theorem length_filter_isNone_add (exc : EditPatch → Option String)
    (l : List EditPatch) :
    (l.filter (fun p => (exc p).isNone)).length +
      (l.filter (fun p => (exc p).isSome)).length = l.length := by
  induction l with
  | nil => rfl
  | cons p ps ih =>
    cases hexc : exc p <;> simp [List.filter_cons, hexc] <;> omega

/-- C4: for a validated patch list in a non-dry run where exactly the
patches failing the oracle raise, the response applies the N−K
non-failing patches in order (so a failure does not block later patches),
reports the K failing ones, succeeds exactly when K is zero, and logs
exactly one change-log entry per patch recording that patch's outcome. -/
theorem apply_edits_accounting (md : ReportMetadata)
    (patches : List EditPatch) (uid : Option String) (cb fe : Bool)
    (exc : EditPatch → Option String)
    (hvalid : validate_patches md patches = []) :
    (apply_edits md patches uid false cb fe exc).applied_patches =
      (patches.filter (fun p => (exc p).isNone)).map (fun p => p.id) ∧
    (apply_edits md patches uid false cb fe exc).applied_patches.length =
      patches.length - (patches.filter (fun p => (exc p).isSome)).length ∧
    (apply_edits md patches uid false cb fe exc).failed_patches.length =
      (patches.filter (fun p => (exc p).isSome)).length ∧
    ((apply_edits md patches uid false cb fe exc).success = true ↔
      (patches.filter (fun p => (exc p).isSome)).length = 0) ∧
    (apply_edits md patches uid false cb fe exc).change_log_entries.length =
      patches.length ∧
    (apply_edits md patches uid false cb fe exc).change_log_entries.map
        (fun en => en.success) =
      patches.map (fun p => (exc p).isNone) := by
  have hsum := length_filter_isNone_add exc patches
  have hcond : ¬ (validate_patches md patches ≠ []) := by simp [hvalid]
  simp only [apply_edits, if_neg hcond, apply_loop_run]
  refine ⟨trivial, by simp; omega, by simp, ?_, by simp, ?_⟩
  · simp [List.map_eq_nil_iff, List.length_eq_zero]
  · simp only [List.map_map]
    apply List.map_congr_left
    intro p _
    cases hexc : exc p <;> simp [create_change_log_entry, hexc]

/-- Concrete patch list for the C4 witness. -/
def c4Patches : List EditPatch :=
  [{ id := "p1", operation := .HIDE, target_field_id := "f1" },
   { id := "p2", operation := .SHOW, target_field_id := "f2" },
   { id := "p3", operation := .HIDE, target_field_id := "f3" }]

/-- Concrete mutation oracle for the C4 witness: only `p2` raises. -/
def c4Exc (p : EditPatch) : Option String :=
  if p.id = "p2" then some "boom" else none

/-- Witness for C4: of the three patches the middle one raises; the other
two apply in order, three entries are logged recording each outcome, and
success is false. -/
theorem apply_edits_accounting_witness :
    (validate_patches sampleMetadata c4Patches = []) ∧
    ((apply_edits sampleMetadata c4Patches none false true true
        c4Exc).applied_patches =
      (c4Patches.filter (fun p => (c4Exc p).isNone)).map (fun p => p.id) ∧
     (apply_edits sampleMetadata c4Patches none false true true
        c4Exc).applied_patches.length =
      c4Patches.length -
        (c4Patches.filter (fun p => (c4Exc p).isSome)).length ∧
     (apply_edits sampleMetadata c4Patches none false true true
        c4Exc).failed_patches.length =
      (c4Patches.filter (fun p => (c4Exc p).isSome)).length ∧
     ((apply_edits sampleMetadata c4Patches none false true true
        c4Exc).success = true ↔
      (c4Patches.filter (fun p => (c4Exc p).isSome)).length = 0) ∧
     (apply_edits sampleMetadata c4Patches none false true true
        c4Exc).change_log_entries.length = c4Patches.length ∧
     (apply_edits sampleMetadata c4Patches none false true true
        c4Exc).change_log_entries.map (fun en => en.success) =
      c4Patches.map (fun p => (c4Exc p).isNone)) :=
  ⟨by decide,
   apply_edits_accounting sampleMetadata c4Patches none true true c4Exc
     (by decide)⟩

/-- C5: when some patch targets a field id absent from the metadata,
validation reports it by name (and aggregates one such error for every
missing-target patch rather than stopping at the first), and both preview
and apply abort with the combined validation message: nothing is applied,
no backup is created, no change-log entry is produced. -/
theorem validation_failure_aborts (md : ReportMetadata)
    (patches : List EditPatch) (uid : Option String) (dry cb fe : Bool)
    (exc : EditPatch → Option String)
    (h : ∃ p ∈ patches, find_field_by_id md p.target_field_id = none) :
    validate_patches md patches ≠ [] ∧
    (∀ p ∈ patches, find_field_by_id md p.target_field_id = none →
      ("Field " ++ p.target_field_id ++ " not found") ∈
        validate_patches md patches) ∧
    preview_edits md patches =
      .error (validationFailureMessage (validate_patches md patches)) ∧
    apply_edits md patches uid dry cb fe exc =
      { success := false
        applied_patches := []
        failed_patches :=
          [("all", validationFailureMessage (validate_patches md patches))]
        backup_created := false
        change_log_entries := []
        mutation_calls := [] } := by
  have hmem : ∀ p ∈ patches, find_field_by_id md p.target_field_id = none →
      ("Field " ++ p.target_field_id ++ " not found") ∈
        validate_patches md patches := by
    intro p hp hnone
    simp only [validate_patches, List.mem_flatten]
    refine ⟨patchErrors md p, List.mem_map_of_mem _ hp, ?_⟩
    simp [patchErrors, hnone]
  obtain ⟨p, hp, hnone⟩ := h
  have hne : validate_patches md patches ≠ [] :=
    List.ne_nil_of_mem (hmem p hp hnone)
  exact ⟨hne, hmem, by simp only [preview_edits, if_pos hne],
    by simp only [apply_edits, if_pos hne]⟩

/-- Concrete patch list for the C5 witness: three patches of which
exactly the second targets a nonexistent field id. -/
def c5Patches : List EditPatch :=
  [{ id := "p1", operation := .HIDE, target_field_id := "f1" },
   { id := "p2", operation := .HIDE, target_field_id := "zz" },
   { id := "p3", operation := .SHOW, target_field_id := "f2" }]

/-- Witness for C5 at the concrete patch list `c5Patches`. -/
theorem validation_failure_aborts_witness :
    (∃ p ∈ c5Patches,
      find_field_by_id sampleMetadata p.target_field_id = none) ∧
    (validate_patches sampleMetadata c5Patches ≠ [] ∧
     (∀ p ∈ c5Patches,
        find_field_by_id sampleMetadata p.target_field_id = none →
        ("Field " ++ p.target_field_id ++ " not found") ∈
          validate_patches sampleMetadata c5Patches) ∧
     preview_edits sampleMetadata c5Patches =
       .error (validationFailureMessage
         (validate_patches sampleMetadata c5Patches)) ∧
     apply_edits sampleMetadata c5Patches none false true true
         (fun _ => none) =
       { success := false
         applied_patches := []
         failed_patches := [("all", validationFailureMessage
           (validate_patches sampleMetadata c5Patches))]
         backup_created := false
         change_log_entries := []
         mutation_calls := [] }) :=
  ⟨by decide,
   validation_failure_aborts sampleMetadata c5Patches none false true true
     (fun _ => none) (by decide)⟩

/-- C9: for a validated patch list, a dry run creates no backup and
performs no mutation call, yet still returns one success change-log entry
per patch and every patch id in `applied_patches` — identical, in those
response fields, to a non-dry run in which every mutation succeeds. -/
theorem dry_run_no_side_effects (md : ReportMetadata)
    (patches : List EditPatch) (uid : Option String) (cb fe : Bool)
    (exc : EditPatch → Option String)
    (hvalid : validate_patches md patches = []) :
    (apply_edits md patches uid true cb fe exc).backup_created = false ∧
    (apply_edits md patches uid true cb fe exc).mutation_calls = [] ∧
    (apply_edits md patches uid true cb fe exc).applied_patches =
      patches.map (fun p => p.id) ∧
    (apply_edits md patches uid true cb fe exc).change_log_entries =
      patches.map (fun p => create_change_log_entry md p uid true none) ∧
    (∀ en ∈ (apply_edits md patches uid true cb fe exc).change_log_entries,
      en.success = true) ∧
    (apply_edits md patches uid true cb fe exc).success = true ∧
    ((apply_edits md patches uid true cb fe exc).applied_patches =
        (apply_edits md patches uid false cb fe (fun _ => none)
          ).applied_patches ∧
     (apply_edits md patches uid true cb fe exc).failed_patches =
        (apply_edits md patches uid false cb fe (fun _ => none)
          ).failed_patches ∧
     (apply_edits md patches uid true cb fe exc).change_log_entries =
        (apply_edits md patches uid false cb fe (fun _ => none)
          ).change_log_entries ∧
     (apply_edits md patches uid true cb fe exc).success =
        (apply_edits md patches uid false cb fe (fun _ => none)).success) := by
  have hcond : ¬ (validate_patches md patches ≠ []) := by simp [hvalid]
  simp only [apply_edits, if_neg hcond, apply_loop_dry, apply_loop_run]
  refine ⟨?_, ?_, ?_, ?_, ?_, ?_, ?_, ?_, ?_, ?_⟩ <;>
    first
      | trivial
      | (intro en hen
         simp only [List.mem_map] at hen
         obtain ⟨p, hp, rfl⟩ := hen
         rfl)
      | simp

/-- Witness for C9 at the concrete patch list `c4Patches`, with an oracle
that would raise on every patch if it were consulted. -/
theorem dry_run_no_side_effects_witness :
    (validate_patches sampleMetadata c4Patches = []) ∧
    ((apply_edits sampleMetadata c4Patches none true true true
        (fun _ => some "never called")).backup_created = false ∧
     (apply_edits sampleMetadata c4Patches none true true true
        (fun _ => some "never called")).mutation_calls = [] ∧
     (apply_edits sampleMetadata c4Patches none true true true
        (fun _ => some "never called")).applied_patches =
       c4Patches.map (fun p => p.id) ∧
     (apply_edits sampleMetadata c4Patches none true true true
        (fun _ => some "never called")).change_log_entries =
       c4Patches.map
         (fun p => create_change_log_entry sampleMetadata p none true none) ∧
     (∀ en ∈ (apply_edits sampleMetadata c4Patches none true true true
        (fun _ => some "never called")).change_log_entries,
       en.success = true) ∧
     (apply_edits sampleMetadata c4Patches none true true true
        (fun _ => some "never called")).success = true ∧
     ((apply_edits sampleMetadata c4Patches none true true true
          (fun _ => some "never called")).applied_patches =
        (apply_edits sampleMetadata c4Patches none false true true
          (fun _ => none)).applied_patches ∧
      (apply_edits sampleMetadata c4Patches none true true true
          (fun _ => some "never called")).failed_patches =
        (apply_edits sampleMetadata c4Patches none false true true
          (fun _ => none)).failed_patches ∧
      (apply_edits sampleMetadata c4Patches none true true true
          (fun _ => some "never called")).change_log_entries =
        (apply_edits sampleMetadata c4Patches none false true true
          (fun _ => none)).change_log_entries ∧
      (apply_edits sampleMetadata c4Patches none true true true
          (fun _ => some "never called")).success =
        (apply_edits sampleMetadata c4Patches none false true true
          (fun _ => none)).success)) :=
  ⟨by decide,
   dry_run_no_side_effects sampleMetadata c4Patches none true true
     (fun _ => some "never called") (by decide)⟩

/-- Applying a patch to a field never changes the field id. -/
theorem apply_patch_to_field_id (f : ReportField) (p : EditPatch) :
    (apply_patch_to_field f p).id = f.id := by
  rcases p with ⟨pid, op, tfid, tsid, nn, np, nf, vis, desc⟩
  unfold apply_patch_to_field
  cases op <;>
    (dsimp only
     repeat' split
     all_goals rfl)

/-- Searching a field list after `applyToFirstMatch` finds exactly the
patched image of the field the search found before. -/
theorem find?_applyToFirstMatch (field_id : String) (p : EditPatch)
    (l : List ReportField) :
    (applyToFirstMatch field_id p l).find? (fun f => f.id = field_id) =
      (l.find? (fun f => f.id = field_id)).map
        (fun f => apply_patch_to_field f p) := by
  induction l with
  | nil => rfl
  | cons f fs ih =>
    by_cases h : f.id = field_id
    · simp [applyToFirstMatch, h, List.find?_cons, apply_patch_to_field_id]
    · simp [applyToFirstMatch, h, List.find?_cons, ih]

/-- One step of the preview patch loop transforms the field found by
`_find_field_by_id` for the patch target into its patched image. -/
theorem find_field_apply_step (md : ReportMetadata) (p : EditPatch) :
    find_field_by_id (apply_patch_step md p) p.target_field_id =
      (find_field_by_id md p.target_field_id).map
        (fun f => apply_patch_to_field f p) := by
  have hsec : (md.sections.map (fun s =>
      { s with fields := applyToFirstMatch p.target_field_id p s.fields }
      )).findSome? (fun s => s.fields.find?
        (fun f => f.id = p.target_field_id)) =
      (md.sections.findSome? (fun s => s.fields.find?
        (fun f => f.id = p.target_field_id))).map
        (fun f => apply_patch_to_field f p) := by
    induction md.sections with
    | nil => rfl
    | cons s ss ih =>
      simp only [List.map_cons, List.findSome?_cons, find?_applyToFirstMatch]
      cases s.fields.find? (fun f => f.id = p.target_field_id) with
      | some f => rfl
      | none => exact ih
  unfold find_field_by_id apply_patch_step
  simp only
  rw [hsec, find?_applyToFirstMatch, find?_applyToFirstMatch]
  cases md.sections.findSome? (fun s => s.fields.find?
      (fun f => f.id = p.target_field_id)) with
  | some f => rfl
  | none =>
    cases md.parameters.find? (fun f => f.id = p.target_field_id) with
    | some f => rfl
    | none =>
      cases md.formulas.find? (fun f => f.id = p.target_field_id) with
      | some f => rfl
      | none => rfl

/-- C2 amended: applying a hide patch then a show patch to the same field
on the preview copy always leaves the field visible, because `show` sets
visibility absolutely; the final visibility therefore equals the
pre-patch visibility exactly when the field was visible before. -/
theorem hide_show_roundtrip_amended (md : ReportMetadata) (fid : String)
    (hp sp : EditPatch) (hs : sp.operation = .SHOW)
    (hth : hp.target_field_id = fid) (hts : sp.target_field_id = fid) :
    ((find_field_by_id (apply_patches_to_metadata md [hp, sp]) fid).map
        (fun f => f.visible) =
      (find_field_by_id md fid).map (fun _ => true)) ∧
    (∀ f0, find_field_by_id md fid = some f0 → f0.visible = true →
      (find_field_by_id (apply_patches_to_metadata md [hp, sp]) fid).map
          (fun f => f.visible) = some f0.visible) := by
  have h1 := find_field_apply_step md hp
  have h2 := find_field_apply_step (apply_patch_step md hp) sp
  rw [hth] at h1
  rw [hts] at h2
  have hfold : apply_patches_to_metadata md [hp, sp] =
      apply_patch_step (apply_patch_step md hp) sp := rfl
  have hmain : (find_field_by_id (apply_patches_to_metadata md [hp, sp])
      fid).map (fun f => f.visible) =
      (find_field_by_id md fid).map (fun _ => true) := by
    rw [hfold, h2, h1]
    cases find_field_by_id md fid with
    | none => rfl
    | some f =>
      simp only [Option.map_some, Option.map_map, Function.comp]
      congr 1
      rcases sp with ⟨spid, sop, stfid, stsid, snn, snp, snf, svis, sdesc⟩
      cases hs
      rfl
  exact ⟨hmain, fun f0 h0 hvis => by rw [hmain, h0]; simp [hvis]⟩

/-- Concrete section for the C2 counterexample: its only field starts
hidden. -/
def c2Section : ReportSection :=
  { id := "s1", section_type := .DETAILS, name := "Details",
    fields := [{ sampleField "f1" "Amount" .CURRENCY with visible := false }] }

/-- Concrete metadata for the C2 counterexample. -/
def c2Metadata : ReportMetadata :=
  { id := "r2", filename := "g.rpt", sections := [c2Section] }

/-- Concrete hide patch for C2. -/
def c2HidePatch : EditPatch :=
  { id := "cp1", operation := .HIDE, target_field_id := "f1" }

/-- Concrete show patch for C2. -/
def c2ShowPatch : EditPatch :=
  { id := "cp2", operation := .SHOW, target_field_id := "f1" }

/-- C2 counterexample: for a field whose pre-patch visibility is false,
applying hide then show on the preview copy yields visibility true, not
the pre-patch visibility — the round trip fails for an initially hidden
field. -/
theorem hide_show_roundtrip_counterexample :
    (find_field_by_id c2Metadata "f1").map (fun f => f.visible) =
      some false ∧
    (find_field_by_id
        (apply_patches_to_metadata c2Metadata [c2HidePatch, c2ShowPatch])
        "f1").map (fun f => f.visible) ≠
      (find_field_by_id c2Metadata "f1").map (fun f => f.visible) := by
  decide

/-- Witness for C2 (amended) at a variant of the concrete metadata whose
target field starts visible. -/
theorem hide_show_roundtrip_witness :
    (c2ShowPatch.operation = .SHOW ∧
      c2HidePatch.target_field_id = "f1" ∧
      c2ShowPatch.target_field_id = "f1") ∧
    ((find_field_by_id
        (apply_patches_to_metadata sampleMetadata [c2HidePatch, c2ShowPatch])
        "f1").map (fun f => f.visible) =
      (find_field_by_id sampleMetadata "f1").map (fun _ => true)) :=
  ⟨⟨rfl, rfl, rfl⟩,
   (hide_show_roundtrip_amended sampleMetadata "f1" c2HidePatch c2ShowPatch
     rfl rfl rfl).1⟩

/-! ## Lemmas about deduplication, truncation and the field scan,
used to settle the suggestion-generation claim. -/

/-- Every element surviving deduplication was in the input. -/
theorem mem_of_mem_dedupFirstAux (c : String) :
    ∀ (l seen : List String), c ∈ dedupFirstAux seen l → c ∈ l
  | [], _, h => by simp [dedupFirstAux] at h
  | x :: xs, seen, h => by
    by_cases hx : x ∈ seen
    · simp only [dedupFirstAux, if_pos hx] at h
      exact List.mem_cons_of_mem x (mem_of_mem_dedupFirstAux c xs seen h)
    · simp only [dedupFirstAux, if_neg hx, List.mem_cons] at h
      rcases h with rfl | h
      · exact List.mem_cons_self c xs
      · exact List.mem_cons_of_mem x
          (mem_of_mem_dedupFirstAux c xs (seen ++ [x]) h)

/-- Nothing already seen is emitted again by deduplication. -/
theorem not_mem_seen_of_mem_dedupFirstAux (c : String) :
    ∀ (l seen : List String), c ∈ dedupFirstAux seen l → c ∉ seen
  | [], _, h => by simp [dedupFirstAux] at h
  | x :: xs, seen, h => by
    by_cases hx : x ∈ seen
    · simp only [dedupFirstAux, if_pos hx] at h
      exact not_mem_seen_of_mem_dedupFirstAux c xs seen h
    · simp only [dedupFirstAux, if_neg hx, List.mem_cons] at h
      rcases h with rfl | h
      · exact hx
      · intro hc
        exact not_mem_seen_of_mem_dedupFirstAux c xs (seen ++ [x]) h
          (List.mem_append_left _ hc)

/-- Deduplication produces a list without duplicates. -/
theorem dedupFirstAux_nodup : ∀ (l seen : List String),
    (dedupFirstAux seen l).Nodup
  | [], _ => by simp [dedupFirstAux]
  | x :: xs, seen => by
    by_cases hx : x ∈ seen
    · simpa only [dedupFirstAux, if_pos hx] using
        dedupFirstAux_nodup xs seen
    · simp only [dedupFirstAux, if_neg hx, List.nodup_cons]
      refine ⟨fun hmem => ?_, dedupFirstAux_nodup xs (seen ++ [x])⟩
      exact not_mem_seen_of_mem_dedupFirstAux x xs (seen ++ [x]) hmem
        (List.mem_append_right _ (List.mem_singleton_self x))

/-- Membership in a truncation is monotone in the truncation length. -/
theorem mem_take_succ {α : Type} (c : α) :
    ∀ (l : List α) (m : Nat), c ∈ l.take m → c ∈ l.take (m + 1)
  | [], _, h => by simp at h
  | x :: xs, 0, h => by simp at h
  | x :: xs, m + 1, h => by
    simp only [List.take, List.mem_cons] at h ⊢
    rcases h with rfl | h
    · exact Or.inl rfl
    · exact Or.inr (mem_take_succ c xs m h)

/-- An unseen element of the first `n` entries of the input stays within
the first `n` entries of the deduplication. -/
theorem mem_take_dedupFirstAux (c : String) :
    ∀ (l : List String) (seen : List String) (n : Nat),
      c ∈ l.take n → c ∉ seen → c ∈ (dedupFirstAux seen l).take n
  | [], _, n, h, _ => by simp at h
  | x :: xs, seen, 0, h, _ => by simp at h
  | x :: xs, seen, n + 1, h, hseen => by
    simp only [List.take, List.mem_cons] at h
    by_cases hx : x ∈ seen
    · have hcx : c ≠ x := fun hcx => hseen (hcx ▸ hx)
      rcases h with rfl | h
      · exact absurd hx hseen
      · have := mem_take_dedupFirstAux c xs seen n h hseen
        simpa only [dedupFirstAux, if_pos hx] using mem_take_succ c _ n this
    · simp only [dedupFirstAux, if_neg hx, List.take, List.mem_cons]
      rcases h with rfl | h
      · exact Or.inl rfl
      · by_cases hcx : c = x
        · exact Or.inl hcx
        · refine Or.inr (mem_take_dedupFirstAux c xs (seen ++ [x]) n h ?_)
          simp [hseen, hcx]

/-- An element of the first `n` entries of the input stays within the
first `n` entries of the deduplication. -/
theorem mem_take_dedupFirst (c : String) (l : List String) (n : Nat)
    (h : c ∈ l.take n) : c ∈ (dedupFirst l).take n :=
  mem_take_dedupFirstAux c l [] n h (by simp)

/-- An element preceded by fewer than `n` entries is within the first `n`
entries. -/
theorem mem_take_of_append {α : Type} (c : α) :
    ∀ (l1 : List α) (l2 : List α) (n : Nat), l1.length < n →
      c ∈ (l1 ++ c :: l2).take n
  | [], l2, n, h => by
    cases n with
    | zero => omega
    | succ m => simp [List.take]
  | x :: xs, l2, n, h => by
    cases n with
    | zero => omega
    | succ m =>
      simp only [List.cons_append, List.take, List.mem_cons]
      exact Or.inr (mem_take_of_append c xs l2 m (by simpa using h))

/-- A suggestion preceded by fewer than 15 raw entries survives
deduplication and truncation. -/
theorem mem_suggestions_of_split (md : ReportMetadata) (c : String)
    (l1 l2 : List String) (hsplit : rawSuggestions md = l1 ++ c :: l2)
    (hlen : l1.length < 15) : c ∈ generate_query_suggestions md := by
  unfold generate_query_suggestions
  exact mem_take_dedupFirst c _ 15
    (hsplit ▸ mem_take_of_append c l1 l2 15 hlen)

/-- Two questions are generated per sampled field name, so the
field-specific block has at most six entries. -/
theorem fieldNameQuestions_length_le (names : List String) :
    (fieldNameQuestions names).length ≤ 6 := by
  have hlen : ∀ l : List String,
      (l.flatMap (fun n => ["Where does " ++ n ++ " come from?",
        "Show me details about the " ++ n ++ " field"])).length =
        2 * l.length := by
    intro l
    induction l with
    | nil => rfl
    | cons x xs ih => simp [ih]; omega
  unfold fieldNameQuestions
  rw [hlen]
  have := names.length_take_le 3
  omega

/-- The formula block has at most two entries. -/
theorem formulaQuestions_length_le (l : List String) :
    (formulaQuestions l).length ≤ 2 := by
  cases l with
  | nil => simp [formulaQuestions]
  | cons x xs =>
    simp only [formulaQuestions, List.length_cons]
    split <;> simp

/-- The currency block has at most two entries. -/
theorem currencyQuestions_length_le (l : List String) :
    (currencyQuestions l).length ≤ 2 := by
  cases l with
  | nil => simp [currencyQuestions]
  | cons x xs =>
    simp only [currencyQuestions, List.length_cons]
    split <;> simp

/-- One scan step only ever extends the collected currency names. -/
theorem scanField_currency_shape (acc : NameScan) (f : ReportField) :
    (scanField acc f).currency_fields = acc.currency_fields ∨
    (scanField acc f).currency_fields = acc.currency_fields ++ [f.name] := by
  simp only [scanField]
  split <;> simp

/-- One scan step only ever extends the collected formula names. -/
theorem scanField_formula_shape (acc : NameScan) (f : ReportField) :
    (scanField acc f).formula_fields = acc.formula_fields ∨
    (scanField acc f).formula_fields = acc.formula_fields ++ [f.name] := by
  simp only [scanField]
  split <;> simp

/-- Scanning a currency field leaves the currency list nonempty. -/
theorem scanField_currency_of (acc : NameScan) (f : ReportField)
    (h : f.field_type = .CURRENCY) :
    (scanField acc f).currency_fields ≠ [] := by
  simp only [scanField]
  split
  · simp
  · rename_i hcond
    rw [not_and_or] at hcond
    rcases hcond with hval | hmem
    · exact absurd (by rw [h]; rfl) hval
    · rw [not_not] at hmem
      exact List.ne_nil_of_mem hmem

/-- Scanning a formula field leaves the formula list nonempty. -/
theorem scanField_formula_of (acc : NameScan) (f : ReportField)
    (h : f.field_type = .FORMULA) :
    (scanField acc f).formula_fields ≠ [] := by
  simp only [scanField]
  split
  · simp
  · rename_i hcond
    rw [not_and_or] at hcond
    rcases hcond with hval | hmem
    · exact absurd (by rw [h]; rfl) hval
    · rw [not_not] at hmem
      exact List.ne_nil_of_mem hmem

/-- The field-level scan preserves nonemptiness of the currency list. -/
theorem foldl_scanField_currency_mono (fields : List ReportField) :
    ∀ acc : NameScan, acc.currency_fields ≠ [] →
      ((fields.foldl scanField acc).currency_fields ≠ []) := by
  induction fields with
  | nil => intro acc h; exact h
  | cons f fs ih =>
    intro acc h
    refine ih (scanField acc f) ?_
    rcases scanField_currency_shape acc f with hs | hs <;> rw [hs] <;>
      simp [h]

/-- The field-level scan preserves nonemptiness of the formula list. -/
theorem foldl_scanField_formula_mono (fields : List ReportField) :
    ∀ acc : NameScan, acc.formula_fields ≠ [] →
      ((fields.foldl scanField acc).formula_fields ≠ []) := by
  induction fields with
  | nil => intro acc h; exact h
  | cons f fs ih =>
    intro acc h
    refine ih (scanField acc f) ?_
    rcases scanField_formula_shape acc f with hs | hs <;> rw [hs] <;>
      simp [h]

/-- A currency field among the scanned fields makes the currency list
nonempty. -/
theorem foldl_scanField_currency (fields : List ReportField) :
    ∀ acc : NameScan, (∃ f ∈ fields, f.field_type = .CURRENCY) →
      ((fields.foldl scanField acc).currency_fields ≠ []) := by
  induction fields with
  | nil => rintro acc ⟨f, hf, _⟩; simp at hf
  | cons g gs ih =>
    rintro acc ⟨f, hf, hft⟩
    rcases List.mem_cons.mp hf with rfl | hf
    · exact foldl_scanField_currency_mono gs (scanField acc f)
        (scanField_currency_of acc f hft)
    · exact ih (scanField acc g) ⟨f, hf, hft⟩

/-- A formula field among the scanned fields makes the formula list
nonempty. -/
theorem foldl_scanField_formula (fields : List ReportField) :
    ∀ acc : NameScan, (∃ f ∈ fields, f.field_type = .FORMULA) →
      ((fields.foldl scanField acc).formula_fields ≠ []) := by
  induction fields with
  | nil => rintro acc ⟨f, hf, _⟩; simp at hf
  | cons g gs ih =>
    rintro acc ⟨f, hf, hft⟩
    rcases List.mem_cons.mp hf with rfl | hf
    · exact foldl_scanField_formula_mono gs (scanField acc f)
        (scanField_formula_of acc f hft)
    · exact ih (scanField acc g) ⟨f, hf, hft⟩

/-- The section-level scan preserves nonemptiness of the currency
list. -/
theorem sections_foldl_currency_mono (sections : List ReportSection) :
    ∀ acc : NameScan, acc.currency_fields ≠ [] →
      ((sections.foldl (fun acc s => s.fields.foldl scanField acc)
        acc).currency_fields ≠ []) := by
  induction sections with
  | nil => intro acc h; exact h
  | cons s ss ih =>
    intro acc h
    exact ih _ (foldl_scanField_currency_mono s.fields acc h)

/-- The section-level scan preserves nonemptiness of the formula list. -/
theorem sections_foldl_formula_mono (sections : List ReportSection) :
    ∀ acc : NameScan, acc.formula_fields ≠ [] →
      ((sections.foldl (fun acc s => s.fields.foldl scanField acc)
        acc).formula_fields ≠ []) := by
  induction sections with
  | nil => intro acc h; exact h
  | cons s ss ih =>
    intro acc h
    exact ih _ (foldl_scanField_formula_mono s.fields acc h)

/-- A currency field in some scanned section makes the currency list
nonempty, for the section-level fold. -/
theorem sections_foldl_currency (sections : List ReportSection) :
    ∀ acc : NameScan,
      (∃ s ∈ sections, ∃ f ∈ s.fields, f.field_type = .CURRENCY) →
      ((sections.foldl (fun acc s => s.fields.foldl scanField acc)
        acc).currency_fields ≠ []) := by
  induction sections with
  | nil => rintro acc ⟨s, hs, _⟩; simp at hs
  | cons t ts ih =>
    rintro acc ⟨s, hs, hf⟩
    rcases List.mem_cons.mp hs with rfl | hs'
    · exact sections_foldl_currency_mono ts _
        (foldl_scanField_currency s.fields acc hf)
    · exact ih _ ⟨s, hs', hf⟩

/-- A formula field in some scanned section makes the formula list
nonempty, for the section-level fold. -/
theorem sections_foldl_formula (sections : List ReportSection) :
    ∀ acc : NameScan,
      (∃ s ∈ sections, ∃ f ∈ s.fields, f.field_type = .FORMULA) →
      ((sections.foldl (fun acc s => s.fields.foldl scanField acc)
        acc).formula_fields ≠ []) := by
  induction sections with
  | nil => rintro acc ⟨s, hs, _⟩; simp at hs
  | cons t ts ih =>
    rintro acc ⟨s, hs, hf⟩
    rcases List.mem_cons.mp hs with rfl | hs'
    · exact sections_foldl_formula_mono ts _
        (foldl_scanField_formula s.fields acc hf)
    · exact ih _ ⟨s, hs', hf⟩

/-- A currency field in some section makes the scanned currency list
nonempty. -/
theorem scanNames_currency (md : ReportMetadata)
    (h : ∃ s ∈ md.sections, ∃ f ∈ s.fields, f.field_type = .CURRENCY) :
    (scanNames md).currency_fields ≠ [] :=
  sections_foldl_currency md.sections _ h

/-- A formula field in some section makes the scanned formula list
nonempty. -/
theorem scanNames_formula (md : ReportMetadata)
    (h : ∃ s ∈ md.sections, ∃ f ∈ s.fields, f.field_type = .FORMULA) :
    (scanNames md).formula_fields ≠ [] :=
  sections_foldl_formula md.sections _ h

/-- C7 amended: for metadata with at least one currency field, one
formula field, one parameter and two tables, the suggestion list contains
the three generic questions, a currency-specific question and a
formula-specific question, has at most 15 entries and no duplicates; the
table-relationships question is guaranteed only when no database
connection is configured — with a connection and three sampled field
names it is truncated away by the 15-entry cap. -/
theorem suggestions_bounds_amended (md : ReportMetadata)
    (hcur : ∃ s ∈ md.sections, ∃ f ∈ s.fields, f.field_type = .CURRENCY)
    (hfor : ∃ s ∈ md.sections, ∃ f ∈ s.fields, f.field_type = .FORMULA)
    (_hpar : md.parameters ≠ []) (htab : 1 < md.tables.length) :
    (generate_query_suggestions md).length ≤ 15 ∧
    (generate_query_suggestions md).Nodup ∧
    (∀ q ∈ genericQuestions, q ∈ generate_query_suggestions md) ∧
    "Which fields use formulas?" ∈ generate_query_suggestions md ∧
    "Show me all currency fields" ∈ generate_query_suggestions md ∧
    (md.database_connections = [] →
      "How are the tables related?" ∈ generate_query_suggestions md) := by
  have hfq := fieldNameQuestions_length_le (scanNames md).field_names
  have hfoq := formulaQuestions_length_le (scanNames md).formula_fields
  have hcq := currencyQuestions_length_le (scanNames md).currency_fields
  refine ⟨?_, ?_, ?_, ?_, ?_, ?_⟩
  · exact (dedupFirst (rawSuggestions md)).length_take_le 15
  · exact (dedupFirstAux_nodup (rawSuggestions md) []).sublist
      (List.take_sublist 15 _)
  · intro q hq
    simp only [genericQuestions, List.mem_cons, List.not_mem_nil,
      or_false] at hq
    rcases hq with rfl | rfl | rfl
    · refine mem_suggestions_of_split md _
        [] (["How many fields are in this report?",
             "What database tables are used?"] ++
           fieldNameQuestions (scanNames md).field_names ++
           formulaQuestions (scanNames md).formula_fields ++
           currencyQuestions (scanNames md).currency_fields ++
           databaseQuestions md ++ parameterQuestions md ++
           sectionQuestions md) ?_ (by simp)
      simp [rawSuggestions, genericQuestions]
    · refine mem_suggestions_of_split md _
        ["What sections does this report have?"]
        (["What database tables are used?"] ++
           fieldNameQuestions (scanNames md).field_names ++
           formulaQuestions (scanNames md).formula_fields ++
           currencyQuestions (scanNames md).currency_fields ++
           databaseQuestions md ++ parameterQuestions md ++
           sectionQuestions md) ?_ (by simp)
      simp [rawSuggestions, genericQuestions]
    · refine mem_suggestions_of_split md _
        ["What sections does this report have?",
         "How many fields are in this report?"]
        (fieldNameQuestions (scanNames md).field_names ++
           formulaQuestions (scanNames md).formula_fields ++
           currencyQuestions (scanNames md).currency_fields ++
           databaseQuestions md ++ parameterQuestions md ++
           sectionQuestions md) ?_ (by simp)
      simp [rawSuggestions, genericQuestions]
  · obtain ⟨n, rest, hn⟩ :=
      List.exists_cons_of_ne_nil (scanNames_formula md hfor)
    refine mem_suggestions_of_split md _
      (genericQuestions ++ fieldNameQuestions (scanNames md).field_names)
      ((if n ≠ "" then ["What is the formula for " ++ n ++ "?"] else []) ++
        currencyQuestions (scanNames md).currency_fields ++
        databaseQuestions md ++ parameterQuestions md ++
        sectionQuestions md) ?_ ?_
    · simp [rawSuggestions, hn, formulaQuestions, genericQuestions]
    · simp only [List.length_append, genericQuestions, List.length_cons,
        List.length_nil]
      omega
  · obtain ⟨n, rest, hn⟩ :=
      List.exists_cons_of_ne_nil (scanNames_currency md hcur)
    refine mem_suggestions_of_split md _
      (genericQuestions ++ fieldNameQuestions (scanNames md).field_names ++
        formulaQuestions (scanNames md).formula_fields)
      ((if n ≠ "" then ["How is " ++ n ++ " calculated?"] else []) ++
        databaseQuestions md ++ parameterQuestions md ++
        sectionQuestions md) ?_ ?_
    · simp [rawSuggestions, hn, currencyQuestions, genericQuestions]
    · simp only [List.length_append, genericQuestions, List.length_cons,
        List.length_nil]
      omega
  · intro hconn
    have htabne : md.tables.isEmpty = false := by
      cases htabs : md.tables with
      | nil => rw [htabs] at htab; simp at htab
      | cons t ts => rfl
    have hdbq : databaseQuestions md =
        ["What tables are used in this report?",
         "How are the tables related?"] := by
      simp [databaseQuestions, hconn, htabne, htab]
    refine mem_suggestions_of_split md _
      (genericQuestions ++ fieldNameQuestions (scanNames md).field_names ++
        formulaQuestions (scanNames md).formula_fields ++
        currencyQuestions (scanNames md).currency_fields ++
        ["What tables are used in this report?"])
      (parameterQuestions md ++ sectionQuestions md) ?_ ?_
    · simp [rawSuggestions, hdbq, genericQuestions]
    · simp only [List.length_append, genericQuestions, List.length_cons,
        List.length_nil]
      omega

/-- C7 counterexample: the concrete metadata `sampleMetadata` satisfies
every precondition of the claim (a currency field, a formula field, a
parameter, two tables) yet its suggestion list, capped at 15 entries,
does not contain the table-relationships question — the configured
database connection and the three sampled field names push it to
position 16. -/
theorem suggestions_counterexample :
    (∃ s ∈ sampleMetadata.sections, ∃ f ∈ s.fields,
      f.field_type = .CURRENCY) ∧
    (∃ s ∈ sampleMetadata.sections, ∃ f ∈ s.fields,
      f.field_type = .FORMULA) ∧
    sampleMetadata.parameters ≠ [] ∧
    1 < sampleMetadata.tables.length ∧
    "How are the tables related?" ∉
      generate_query_suggestions sampleMetadata := by
  decide

/-- Concrete metadata for the C7 witness: `sampleMetadata` without its
database connection, so the relationships question fits under the cap. -/
def c7NoConnMetadata : ReportMetadata :=
  { sampleMetadata with database_connections := [] }

/-- Witness for C7 (amended) at `c7NoConnMetadata`. -/
theorem suggestions_bounds_amended_witness :
    ((∃ s ∈ c7NoConnMetadata.sections, ∃ f ∈ s.fields,
        f.field_type = .CURRENCY) ∧
      (∃ s ∈ c7NoConnMetadata.sections, ∃ f ∈ s.fields,
        f.field_type = .FORMULA) ∧
      c7NoConnMetadata.parameters ≠ [] ∧
      1 < c7NoConnMetadata.tables.length) ∧
    ((generate_query_suggestions c7NoConnMetadata).length ≤ 15 ∧
     (generate_query_suggestions c7NoConnMetadata).Nodup ∧
     (∀ q ∈ genericQuestions,
        q ∈ generate_query_suggestions c7NoConnMetadata) ∧
     "Which fields use formulas?" ∈
        generate_query_suggestions c7NoConnMetadata ∧
     "Show me all currency fields" ∈
        generate_query_suggestions c7NoConnMetadata ∧
     (c7NoConnMetadata.database_connections = [] →
        "How are the tables related?" ∈
          generate_query_suggestions c7NoConnMetadata)) :=
  ⟨⟨by decide, by decide, by decide, by decide⟩,
   suggestions_bounds_amended c7NoConnMetadata (by decide) (by decide)
     (by decide) (by decide)⟩

/-! ## Lemmas for `get_unique_filename`: the candidate names are pairwise
distinct, so the collision loop terminates within `|existing| + 1`
probes and returns the first free candidate. -/

/-- Every entry of the decimal digit list is a digit. -/
theorem natDigitsList_lt (n : Nat) : ∀ d ∈ natDigitsList n, d < 10 := by
  intro d hd
  unfold natDigitsList at hd
  split at hd
  · simp only [List.mem_singleton] at hd
    omega
  · exact Nat.digits_lt_base (by norm_num) (List.mem_reverse.mp hd)

/-- The decimal digit list determines the number. -/
theorem natDigitsList_injective : Function.Injective natDigitsList := by
  intro a b h
  unfold natDigitsList at h
  by_cases ha : a = 0 <;> by_cases hb : b = 0
  · omega
  · rw [if_pos ha, if_neg hb] at h
    have hd : Nat.digits 10 b = [0] := by
      have := congrArg List.reverse h
      simpa using this.symm
    have : b = Nat.ofDigits 10 (Nat.digits 10 b) :=
      (Nat.ofDigits_digits 10 b).symm
    rw [hd] at this
    simp [Nat.ofDigits] at this
    omega
  · rw [if_neg ha, if_pos hb] at h
    have hd : Nat.digits 10 a = [0] := by
      have := congrArg List.reverse h
      simpa using this
    have : a = Nat.ofDigits 10 (Nat.digits 10 a) :=
      (Nat.ofDigits_digits 10 a).symm
    rw [hd] at this
    simp [Nat.ofDigits] at this
    omega
  · rw [if_neg ha, if_neg hb] at h
    have hd : Nat.digits 10 a = Nat.digits 10 b :=
      List.reverse_injective h
    calc a = Nat.ofDigits 10 (Nat.digits 10 a) :=
        (Nat.ofDigits_digits 10 a).symm
      _ = Nat.ofDigits 10 (Nat.digits 10 b) := by rw [hd]
      _ = b := Nat.ofDigits_digits 10 b

/-- The digit-to-character map is injective on digits. -/
theorem digitChar_inj (a b : Nat) (ha : a < 10) (hb : b < 10)
    (h : Char.ofNat (48 + a) = Char.ofNat (48 + b)) : a = b := by
  interval_cases a <;> interval_cases b <;>
    first
      | rfl
      | exact absurd h (by decide)

/-- Mapping digit lists to characters is injective. -/
theorem map_digitChar_inj : ∀ (l1 l2 : List Nat),
    (∀ x ∈ l1, x < 10) → (∀ x ∈ l2, x < 10) →
    l1.map (fun d => Char.ofNat (48 + d)) =
      l2.map (fun d => Char.ofNat (48 + d)) → l1 = l2
  | [], [], _, _, _ => rfl
  | [], _ :: _, _, _, h => by simp at h
  | _ :: _, [], _, _, h => by simp at h
  | a :: as, b :: bs, h1, h2, h => by
    simp only [List.map_cons, List.cons.injEq] at h
    have hab := digitChar_inj a b (h1 a (List.mem_cons_self a as))
      (h2 b (List.mem_cons_self b bs)) h.1
    have htail := map_digitChar_inj as bs
      (fun x hx => h1 x (List.mem_cons_of_mem a hx))
      (fun x hx => h2 x (List.mem_cons_of_mem b hx)) h.2
    rw [hab, htail]

/-- The decimal rendering of a counter is injective. -/
theorem natToString_injective : Function.Injective natToString := by
  intro a b h
  unfold natToString at h
  have hdata : (natDigitsList a).map (fun d => Char.ofNat (48 + d)) =
      (natDigitsList b).map (fun d => Char.ofNat (48 + d)) :=
    congrArg String.data h
  exact natDigitsList_injective
    (map_digitChar_inj _ _ (natDigitsList_lt a) (natDigitsList_lt b) hdata)

/-- Distinct counters give distinct candidate filenames. -/
theorem uniqueCandidate_injective (name ext : String) :
    Function.Injective (uniqueCandidate name ext) := by
  intro a b h
  unfold uniqueCandidate at h
  have hdata := congrArg String.data h
  simp only [String.data_append] at hdata
  have h1 := List.append_cancel_right hdata
  have h2 := List.append_cancel_left h1
  apply natToString_injective
  cases hsa : natToString a with
  | mk da =>
    cases hsb : natToString b with
    | mk db =>
      rw [hsa, hsb] at h2
      exact congrArg String.mk (by simpa using h2)

/-- Among the first `|existing| + 1` candidates, at least one is not an
existing filename. -/
theorem exists_fresh (existing : List String) (name ext : String) :
    ∃ j, j < existing.length + 1 ∧
      uniqueCandidate name ext (1 + j) ∉ existing := by
  by_contra hall
  push_neg at hall
  have hinj : Function.Injective (fun j => uniqueCandidate name ext (1 + j))
      := by
    intro a b h
    have := uniqueCandidate_injective name ext h
    omega
  have hsub : (Finset.range (existing.length + 1)).image
      (fun j => uniqueCandidate name ext (1 + j)) ⊆ existing.toFinset := by
    intro c hc
    simp only [Finset.mem_image, Finset.mem_range] at hc
    obtain ⟨j, hj, rfl⟩ := hc
    exact List.mem_toFinset.mpr (hall j hj)
  have hcard := Finset.card_le_card hsub
  rw [Finset.card_image_of_injective _ hinj, Finset.card_range] at hcard
  have := existing.toFinset_card_le
  omega

/-- The collision loop, given enough fuel to reach a free candidate,
returns the first free candidate at or after its starting counter. -/
theorem uniqueLoop_spec (existing : List String) (name ext : String) :
    ∀ (fuel k0 : Nat),
      (∃ j, j < fuel ∧ uniqueCandidate name ext (k0 + j) ∉ existing) →
      ∃ j, j < fuel ∧
        uniqueLoop existing name ext fuel k0 =
          uniqueCandidate name ext (k0 + j) ∧
        uniqueCandidate name ext (k0 + j) ∉ existing ∧
        ∀ i, i < j → uniqueCandidate name ext (k0 + i) ∈ existing := by
  intro fuel
  induction fuel with
  | zero => rintro k0 ⟨j, hj, _⟩; omega
  | succ fuel ih =>
    intro k0 hex
    by_cases hc : uniqueCandidate name ext k0 ∈ existing
    · obtain ⟨j, hj, hnotin⟩ := hex
      have hjpos : j ≠ 0 := by
        rintro rfl
        exact hnotin (by simpa using hc)
      obtain ⟨j', rfl⟩ : ∃ j', j = j' + 1 :=
        ⟨j - 1, by omega⟩
      obtain ⟨j2, hj2, heq, hnot, hmin⟩ := ih (k0 + 1)
        ⟨j', by omega, by rw [show k0 + 1 + j' = k0 + (j' + 1) by omega]
                          exact hnotin⟩
      refine ⟨j2 + 1, by omega, ?_, ?_, ?_⟩
      · rw [show uniqueLoop existing name ext (fuel + 1) k0 =
            uniqueLoop existing name ext fuel (k0 + 1) by
              simp [uniqueLoop, hc]]
        rw [heq]
        congr 1
        omega
      · rw [show k0 + (j2 + 1) = k0 + 1 + j2 by omega]
        exact hnot
      · intro i hi
        cases i with
        | zero => simpa using hc
        | succ i' =>
          rw [show k0 + (i' + 1) = k0 + 1 + i' by omega]
          exact hmin i' (by omega)
    · refine ⟨0, by omega, ?_, by simpa using hc, by omega⟩
      simp [uniqueLoop, hc]

/-- C10: `get_unique_filename` terminates and returns a filename not in
the directory; an uncolliding filename is returned unchanged, and a
colliding one becomes `stem_k.ext` for the smallest positive counter `k`
that avoids every existing filename. -/
theorem get_unique_filename_correct (existing : List String)
    (filename : String) :
    get_unique_filename existing filename ∉ existing ∧
    (filename ∉ existing →
      get_unique_filename existing filename = filename) ∧
    (filename ∈ existing → ∃ k : Nat, 1 ≤ k ∧
      get_unique_filename existing filename =
        uniqueCandidate (splitext filename).1 (splitext filename).2 k ∧
      uniqueCandidate (splitext filename).1 (splitext filename).2 k ∉
        existing ∧
      ∀ j, 1 ≤ j → j < k →
        uniqueCandidate (splitext filename).1 (splitext filename).2 j ∈
          existing) := by
  by_cases hf : filename ∈ existing
  · obtain ⟨j0, hj0, hfresh⟩ :=
      exists_fresh existing (splitext filename).1 (splitext filename).2
    obtain ⟨j, hjlt, heq, hnot, hmin⟩ :=
      uniqueLoop_spec existing (splitext filename).1 (splitext filename).2
        (existing.length + 1) 1 ⟨j0, hj0, hfresh⟩
    have hres : get_unique_filename existing filename =
        uniqueCandidate (splitext filename).1 (splitext filename).2
          (1 + j) := by
      unfold get_unique_filename
      rw [if_pos hf]
      exact heq
    refine ⟨by rw [hres]; exact hnot, fun hnot' => absurd hf hnot',
      fun _ => ⟨1 + j, by omega, hres, hnot, ?_⟩⟩
    intro i hi1 hij
    have hrw : 1 + (i - 1) = i := by omega
    rw [← hrw]
    exact hmin (i - 1) (by omega)
  · unfold get_unique_filename
    rw [if_neg hf]
    exact ⟨hf, fun _ => rfl, fun h => absurd h hf⟩

/-- Witness for C10 at a non-colliding and a colliding concrete
filename. -/
theorem get_unique_filename_correct_witness :
    (("notes.rpt" : String) ∉ ["report.rpt"] ∧
      get_unique_filename ["report.rpt"] "notes.rpt" = "notes.rpt") ∧
    (("report.rpt" : String) ∈ ["report.rpt"] ∧
      ∃ k : Nat, 1 ≤ k ∧
        get_unique_filename ["report.rpt"] "report.rpt" =
          uniqueCandidate (splitext "report.rpt").1
            (splitext "report.rpt").2 k ∧
        uniqueCandidate (splitext "report.rpt").1
            (splitext "report.rpt").2 k ∉ ["report.rpt"] ∧
        ∀ j, 1 ≤ j → j < k →
          uniqueCandidate (splitext "report.rpt").1
            (splitext "report.rpt").2 j ∈ ["report.rpt"]) :=
  ⟨⟨by decide, (get_unique_filename_correct ["report.rpt"] "notes.rpt").2.1
      (by decide)⟩,
   ⟨by decide, (get_unique_filename_correct ["report.rpt"] "report.rpt").2.2
      (by decide)⟩⟩

end CrystalCopilot
